import Mathlib

/-!
Verification of the rule-engine core of `rbs_streamlit.py`.

The engine works on JSON-decoded Python data.  We embed the reachable value
universe as `Value` (JSON null / booleans / numbers / strings / arrays /
string-keyed objects).  Python numbers (int, float, bool in numeric position)
are modelled as exact rationals: the engine performs no arithmetic, only
comparisons of literals, so the idealisation is faithful for every decimal
literal appearing in the rules and facts considered here.

A Python function that may raise an uncaught exception is embedded as
`Except Unit`: `.error ()` marks an exception propagating to the caller,
`.ok b` a normal return.
-/

/-- JSON-decoded Python value as seen by the rule engine. -/
inductive Value : Type where
  | null : Value
  | bool : Bool → Value
  | num : ℚ → Value
  | str : String → Value
  | list : List Value → Value
  | dict : List (String × Value) → Value

/-- Python treats `bool` as a numeric type (`True == 1`); numeric view of a value. -/
def numView : Value → Option ℚ
  | .bool b => some (if b then 1 else 0)
  | .num q => some q
  | _ => none

mutual

/-- Python `==` on embedded values.  Cross-type comparison yields `False`
(never an exception); bools coerce to integers; lists compare pointwise;
dicts compare as key-value maps. -/
def pyEq : Value → Value → Bool
  | .null, .null => true
  | .str a, .str b => a == b
  | .list a, .list b => pyEqList a b
  | .dict a, .dict b => a.length == b.length && pyEqDictAux a b
  | a, b =>
    match numView a, numView b with
    | some x, some y => x == y
    | _, _ => false
termination_by a b => sizeOf a + sizeOf b

/-- Pointwise Python `==` on lists. -/
def pyEqList : List Value → List Value → Bool
  | [], [] => true
  | x :: xs, y :: ys => pyEq x y && pyEqList xs ys
  | _, _ => false
termination_by a b => sizeOf a + sizeOf b

/-- Every key of the first dict maps to an equal value in the second. -/
def pyEqDictAux : List (String × Value) → List (String × Value) → Bool
  | [], _ => true
  | (k, v) :: rest, b => pyEqLookup k v b && pyEqDictAux rest b
termination_by a b => sizeOf a + sizeOf b

/-- The key occurs in the dict with a `pyEq`-equal value. -/
def pyEqLookup : String → Value → List (String × Value) → Bool
  | _, _, [] => false
  | k, v, (k2, v2) :: rest => if k2 == k then pyEq v v2 else pyEqLookup k v rest
termination_by _ v b => sizeOf v + sizeOf b

end

/-- Rational three-way comparison. -/
def ratCmp (a b : ℚ) : Ordering :=
  if a < b then .lt else if b < a then .gt else .eq

/-- String three-way comparison (code-point lexicographic, as in Python). -/
def strCmp (a b : String) : Ordering :=
  if a < b then .lt else if b < a then .gt else .eq

mutual

/-- Python ordering comparison (`<`, `<=`, `>`, `>=` all derive from this):
`some` ordering when the operands are comparable, `none` when Python raises
`TypeError` (mixed incomparable types, dicts, `None`). -/
def pyCmp : Value → Value → Option Ordering
  | .str a, .str b => some (strCmp a b)
  | .list a, .list b => pyCmpList a b
  | a, b =>
    match numView a, numView b with
    | some x, some y => some (ratCmp x y)
    | _, _ => none

/-- Python list comparison: skip the longest `==`-equal prefix, then compare
the first differing pair; a list that runs out first is smaller. -/
def pyCmpList : List Value → List Value → Option Ordering
  | [], [] => some .eq
  | [], _ :: _ => some .lt
  | _ :: _, [] => some .gt
  | x :: xs, y :: ys => if pyEq x y then pyCmpList xs ys else pyCmp x y

end

/-- `needle` occurs as a contiguous run inside `haystack` (Python substring
containment `a in b` for strings). -/
def strContainsSub (needle : List Char) : List Char → Bool
  | [] => needle.isEmpty
  | h :: t => needle.isPrefixOf (h :: t) || strContainsSub needle t

/-- Python `a in b`: `some` membership result when defined, `none` when Python
raises `TypeError` (non-iterable right operand, non-string needle for a string
haystack, unhashable key for a dict haystack). -/
def pyIn (a b : Value) : Option Bool :=
  match b with
  | .list xs => some (xs.any fun x => pyEq x a)
  | .str s =>
    match a with
    | .str n => some (strContainsSub n.data s.data)
    | _ => none
  | .dict d =>
    match a with
    | .list _ => none
    | .dict _ => none
    | _ => some (d.any fun kv => pyEq (.str kv.1) a)
  | _ => none

/-- Whether the value is hashable in Python (usable in `x in some_dict`);
lists and dicts are not. -/
def hashable : Value → Bool
  | .list _ => false
  | .dict _ => false
  | _ => true

/-- The `OPS` table of the source: operator symbol to binary comparison.
Each comparison returns `none` when the Python call would raise (the caller
wraps the application in `try/except`). -/
def OPS : List (String × (Value → Value → Option Bool)) :=
  [("==", fun a b => some (pyEq a b)),
   ("!=", fun a b => some (!pyEq a b)),
   (">", fun a b => (pyCmp a b).map fun c => c == .gt),
   (">=", fun a b => (pyCmp a b).map fun c => c != .lt),
   ("<", fun a b => (pyCmp a b).map fun c => c == .lt),
   ("<=", fun a b => (pyCmp a b).map fun c => c != .gt),
   ("in", pyIn),
   ("not_in", fun a b => (pyIn a b).map (!·))]

/-- Lookup in an association list with string keys (Python dict access). -/
def dictGet {α : Type} : List (String × α) → String → Option α
  | [], _ => none
  | kv :: rest, f => if kv.1 == f then some kv.2 else dictGet rest f

/-- A fact set: the string-keyed mapping passed to the engine. -/
abbrev Facts := List (String × Value)

/-- `evaluate_condition(facts, cond)` of the source.  A condition is the
JSON-decoded list `[field, op, value]`.

Control flow mirrors the source: a condition whose length is not 3 returns
`False` at once; then `field not in facts` is evaluated (raising `TypeError`
for an unhashable field — this check is OUTSIDE the `try` block), then
`op not in OPS` (same caveat), and finally `OPS[op](facts[field], value)`
inside `try/except Exception: return False`. -/
def evaluate_condition (facts : Facts) : List Value → Except Unit Bool
  | [field, op, value] =>
    match field with
    | .list _ => .error ()
    | .dict _ => .error ()
    | .str f =>
      match dictGet facts f with
      | none => .ok false
      | some fv =>
        match op with
        | .list _ => .error ()
        | .dict _ => .error ()
        | .str o =>
          match dictGet OPS o with
          | none => .ok false
          | some fn => .ok ((fn fv value).getD false)
        | _ => .ok false
    | _ => .ok false
  | _ => .ok false

/-- A rule record.  `none` marks an absent dict key: the source reads rules
with `r.get("name", …)`, `r.get("priority", 0)`, `r.get("conditions", [])`,
`r.get("action", …)`.  Priorities are numbers per the rule schema (the sort
key type); an absent `conditions` key is the same as `[]` to the engine, so
it is modelled by the empty list. -/
structure Rule where
  name : Option Value := none
  priority : Option ℚ := none
  conditions : List (List Value) := []
  action : Option Value := none

/-- `all(evaluate_condition(facts, c) for c in conds)`: short-circuits on the
first `False`, and an exception from an earlier condition propagates before
later ones are looked at. -/
def allConditions (facts : Facts) : List (List Value) → Except Unit Bool
  | [] => .ok true
  | c :: rest =>
    match evaluate_condition facts c with
    | .error e => .error e
    | .ok b => if b then allConditions facts rest else .ok false

/-- `rule_matches(facts, rule)` of the source. -/
def rule_matches (facts : Facts) (rule : Rule) : Except Unit Bool :=
  allConditions facts rule.conditions

/-- `[r for r in rules if rule_matches(facts, r)]`: a stable filter evaluated
left to right, aborting at the first rule whose matching raises. -/
def firedList (facts : Facts) : List Rule → Except Unit (List Rule)
  | [] => .ok []
  | r :: rest =>
    match rule_matches facts r with
    | .error e => .error e
    | .ok m =>
      match firedList facts rest with
      | .error e => .error e
      | .ok tail => .ok (if m then r :: tail else tail)

/-- The sort key `r.get("priority", 0)` of the source. -/
def sortKey (r : Rule) : ℚ :=
  r.priority.getD 0

/-- Insert a rule into a descending-by-key list, after every element whose
key is at least as large (so an earlier rule stays ahead of later rules of
equal priority). -/
def insertDesc (r : Rule) : List Rule → List Rule
  | [] => [r]
  | y :: ys => if sortKey r < sortKey y then y :: insertDesc r ys else r :: y :: ys

/-- `sorted(fired, key=lambda r: r.get("priority", 0), reverse=True)`.
Python's sort is stable also under `reverse=True`, so its output is the
unique permutation that is descending on keys and keeps the original order
inside every equal-key class; this insertion sort produces exactly that
permutation. -/
def sortByPriorityDesc : List Rule → List Rule
  | [] => []
  | r :: rest => insertDesc r (sortByPriorityDesc rest)

/-- The default action returned when no rule fires. -/
def noRuleMatchedAction : Value :=
  .dict [("decision", .str "REVIEW"), ("reason", .str "No rule matched")]

/-- The default substituted when the winning rule has no `action` key. -/
def noActionDefault : Value :=
  .dict [("decision", .str "REVIEW"), ("reason", .str "No action")]

/-- `run_rules(facts, rules)` of the source: filter, default on empty,
stable-sort by priority descending, winner = first element's action with the
`"No action"` default substituted only when the `action` key is absent.
(The inner `[]` branch models the `IndexError` of `fired_sorted[0]` on an
empty list; it is unreachable because sorting preserves nonemptiness.) -/
def run_rules (facts : Facts) (rules : List Rule) : Except Unit (Value × List Rule) :=
  match firedList facts rules with
  | .error e => .error e
  | .ok [] => .ok (noRuleMatchedAction, [])
  | .ok (f :: rest) =>
    match sortByPriorityDesc (f :: rest) with
    | [] => .error ()
    | b :: bs => .ok (b.action.getD noActionDefault, b :: bs)

/-- First entry of the source's `DEFAULT_RULES`. -/
def excellentProfileRule : Rule :=
  { name := some (.str "Excellent profile"), priority := some 100,
    conditions :=
      [[.str "income", .str ">=", .num 8000],
       [.str "credit_score", .str ">=", .num 750],
       [.str "debt_to_income", .str "<", .num (mkRat 35 100)],
       [.str "employment_years", .str ">=", .num 2]],
    action := some (.dict [("decision", .str "APPROVE"),
                           ("reason", .str "Excellent income/credit/DTI/employment")]) }

/-- Second entry of the source's `DEFAULT_RULES`. -/
def goodProfileRule : Rule :=
  { name := some (.str "Good profile"), priority := some 80,
    conditions :=
      [[.str "income", .str ">=", .num 6000],
       [.str "credit_score", .str ">=", .num 700],
       [.str "debt_to_income", .str "<", .num (mkRat 45 100)]],
    action := some (.dict [("decision", .str "APPROVE"),
                           ("reason", .str "Good income & credit; DTI acceptable")]) }

/-- Third entry of the source's `DEFAULT_RULES`. -/
def borderlineRule : Rule :=
  { name := some (.str "Borderline — manual review"), priority := some 60,
    conditions :=
      [[.str "income", .str ">=", .num 4000],
       [.str "credit_score", .str ">=", .num 650],
       [.str "debt_to_income", .str "<", .num (mkRat 55 100)]],
    action := some (.dict [("decision", .str "REVIEW"),
                           ("reason", .str "Borderline metrics; needs manual review")]) }

/-- Fourth entry of the source's `DEFAULT_RULES`. -/
def tooMuchDebtRule : Rule :=
  { name := some (.str "Too much debt"), priority := some 70,
    conditions :=
      [[.str "debt_to_income", .str ">=", .num (mkRat 60 100)]],
    action := some (.dict [("decision", .str "REJECT"),
                           ("reason", .str "High debt-to-income ratio")]) }

/-- Fifth entry of the source's `DEFAULT_RULES`. -/
def lowCreditRule : Rule :=
  { name := some (.str "Low credit or income"), priority := some 50,
    conditions :=
      [[.str "credit_score", .str "<", .num 600]],
    action := some (.dict [("decision", .str "REJECT"),
                           ("reason", .str "Credit score below minimum threshold")]) }

/-- The `DEFAULT_RULES` constant of the source. -/
def DEFAULT_RULES : List Rule :=
  [excellentProfileRule, goodProfileRule, borderlineRule, tooMuchDebtRule, lowCreditRule]

/-- Scenario C facts: `{debt_to_income: 0.65, credit_score: 500}`. -/
def scenarioCFacts : Facts :=
  [("debt_to_income", .num (mkRat 65 100)), ("credit_score", .num 500)]

/-- A condition the source can evaluate without the uncaught `TypeError`
of an unhashable `field`/`op`: nothing is required of conditions that are
not triples (their length check returns first), and of a triple only that
the field and operator positions hold hashable values. -/
def condHashSafeB : List Value → Bool
  | [f, o, _] => hashable f && hashable o
  | _ => true

/-- A value that is not a collection in any sense (not a list, dict or
string): the membership operators always fail on such a right operand. -/
def isNonCollection : Value → Bool
  | .null => true
  | .bool _ => true
  | .num _ => true
  | _ => false

/-- A rule with every key absent: no conditions (so it always matches),
no priority, no action. -/
def trivialRule : Rule := {}

/-- Always-matching rule with priority 5 and a distinctive action, used to
exhibit the stable tie-break. -/
def tieRuleA : Rule :=
  { name := some (.str "a"), priority := some 5, action := some (.str "actionA") }

/-- Second always-matching rule with the same priority 5 as `tieRuleA` but a
different action. -/
def tieRuleB : Rule :=
  { name := some (.str "b"), priority := some 5, action := some (.str "actionB") }

/-- Always-matching rule whose `action` key is present but malformed (a bare
number instead of a decision/reason object). -/
def badActionRule : Rule := { action := some (.num 7) }

/-- Always-matching rule with positive priority and no action. -/
def posPriorityRule : Rule := { name := some (.str "pos"), priority := some 5 }

/-- Always-matching rule with negative priority and no action. -/
def negPriorityRule : Rule := { name := some (.str "neg"), priority := some (-3) }

/-- A rule holding one condition whose field slot is a list — the JSON input
`[{"conditions": [[[], "==", 0]]}]` — which makes the source raise
`TypeError: unhashable type` at `field not in facts`. -/
def unhashableFieldRule : Rule := { conditions := [[.list [], .str "==", .num 0]] }

/-! ## Properties of the priority sort -/

/-- Inserting permutes: the result contains the new rule and the old list. -/
theorem insertDesc_perm (r : Rule) (l : List Rule) :
    List.Perm (insertDesc r l) (r :: l) := by
  induction l with
  | nil => exact List.Perm.refl _
  | cons y ys ih =>
    simp only [insertDesc]
    split
    · exact (ih.cons y).trans (List.Perm.swap r y ys)
    · exact List.Perm.refl _

/-- The sort is a permutation of its input. -/
theorem sortByPriorityDesc_perm (l : List Rule) :
    List.Perm (sortByPriorityDesc l) l := by
  induction l with
  | nil => exact List.Perm.refl _
  | cons r rest ih =>
    exact (insertDesc_perm r (sortByPriorityDesc rest)).trans (ih.cons r)

/-- Inserting into a descending list keeps it descending. -/
theorem insertDesc_pairwise (r : Rule) (l : List Rule)
    (h : List.Pairwise (fun x y => sortKey y ≤ sortKey x) l) :
    List.Pairwise (fun x y => sortKey y ≤ sortKey x) (insertDesc r l) := by
  induction l with
  | nil => simp [insertDesc]
  | cons y ys ih =>
    rcases List.pairwise_cons.mp h with ⟨hy, hys⟩
    simp only [insertDesc]
    split
    · rename_i hlt
      refine List.pairwise_cons.mpr ⟨?_, ih hys⟩
      intro z hz
      rcases List.mem_cons.mp ((insertDesc_perm r ys).mem_iff.mp hz) with rfl | hzys
      · exact le_of_lt hlt
      · exact hy z hzys
    · rename_i hge
      refine List.pairwise_cons.mpr ⟨?_, h⟩
      intro z hz
      rcases List.mem_cons.mp hz with rfl | hzys
      · exact le_of_not_lt hge
      · exact (hy z hzys).trans (le_of_not_lt hge)

/-- The sort output is descending on the priority key. -/
theorem sortByPriorityDesc_pairwise (l : List Rule) :
    List.Pairwise (fun x y => sortKey y ≤ sortKey x) (sortByPriorityDesc l) := by
  induction l with
  | nil => simp [sortByPriorityDesc]
  | cons r rest ih => exact insertDesc_pairwise r _ ih

/-- Stability of insertion, phrased through the equal-key filter: among rules
of one fixed key, inserting puts the new rule first and moves nothing else. -/
theorem insertDesc_filter (r : Rule) (l : List Rule) (q : ℚ) :
    (insertDesc r l).filter (fun x => decide (sortKey x = q)) =
      if sortKey r = q then r :: l.filter (fun x => decide (sortKey x = q))
      else l.filter (fun x => decide (sortKey x = q)) := by
  induction l with
  | nil => by_cases hr : sortKey r = q <;> simp [insertDesc, hr]
  | cons y ys ih =>
    simp only [insertDesc]
    split
    · rename_i hlt
      by_cases hr : sortKey r = q
      · have hy : ¬ sortKey y = q := by
          intro hyq
          rw [← hr] at hyq
          exact absurd hyq (ne_of_gt hlt)
        simp [List.filter_cons, hr, hy, ih]
      · by_cases hy : sortKey y = q <;> simp [List.filter_cons, hr, hy, ih]
    · by_cases hr : sortKey r = q <;> simp [List.filter_cons, hr]

/-- Stability of the whole sort: for every key, the rules carrying that key
appear in the sorted output in exactly their original order. -/
theorem sortByPriorityDesc_filter (l : List Rule) (q : ℚ) :
    (sortByPriorityDesc l).filter (fun x => decide (sortKey x = q)) =
      l.filter (fun x => decide (sortKey x = q)) := by
  induction l with
  | nil => rfl
  | cons r rest ih =>
    simp only [sortByPriorityDesc, insertDesc_filter, ih, List.filter_cons]
    by_cases hr : sortKey r = q <;> simp [hr]

/-- Inserting never yields the empty list. -/
theorem insertDesc_ne_nil (r : Rule) (l : List Rule) : insertDesc r l ≠ [] := by
  cases l with
  | nil => simp [insertDesc]
  | cons y ys =>
    simp only [insertDesc]
    split <;> simp

/-! ## Unfolding `run_rules` -/

/-- When some rule fired, `run_rules` returns the head of the sorted fired
list (with the absent-action default) and the sorted fired list itself. -/
theorem run_rules_sorted_head (facts : Facts) (rules : List Rule)
    (fired : List Rule) (b : Rule) (bs : List Rule)
    (hf : firedList facts rules = .ok fired)
    (hs : sortByPriorityDesc fired = b :: bs) :
    run_rules facts rules = .ok (b.action.getD noActionDefault, b :: bs) := by
  have hne : fired ≠ [] := by
    intro hnil
    rw [hnil] at hs
    exact List.noConfusion hs
  obtain ⟨f, rest, rfl⟩ := List.exists_cons_of_ne_nil hne
  unfold run_rules
  rw [hf]
  simp only [hs]

/-! ## Totality of evaluation away from the unhashable corner -/

/-- The evaluator returns normally on every condition whose field and
operator slots are hashable. -/
theorem evaluate_condition_total (facts : Facts) (cond : List Value)
    (h : condHashSafeB cond = true) :
    ∃ b, evaluate_condition facts cond = .ok b := by
  match cond with
  | [] => exact ⟨false, rfl⟩
  | [_] => exact ⟨false, rfl⟩
  | [_, _] => exact ⟨false, rfl⟩
  | [field, op, value] =>
    simp only [condHashSafeB, Bool.and_eq_true] at h
    obtain ⟨hfield, hop⟩ := h
    cases field with
    | list _ => exact absurd hfield (by simp [hashable])
    | dict _ => exact absurd hfield (by simp [hashable])
    | str f =>
      cases hget : dictGet facts f with
      | none => exact ⟨false, by simp [evaluate_condition, hget]⟩
      | some fv =>
        cases op with
        | list _ => exact absurd hop (by simp [hashable])
        | dict _ => exact absurd hop (by simp [hashable])
        | str o =>
          cases hops : dictGet OPS o with
          | none => exact ⟨false, by simp [evaluate_condition, hget, hops]⟩
          | some fn =>
            exact ⟨(fn fv value).getD false, by simp [evaluate_condition, hget, hops]⟩
        | null => exact ⟨false, by simp [evaluate_condition, hget]⟩
        | bool _ => exact ⟨false, by simp [evaluate_condition, hget]⟩
        | num _ => exact ⟨false, by simp [evaluate_condition, hget]⟩
    | null => exact ⟨false, rfl⟩
    | bool _ => exact ⟨false, rfl⟩
    | num _ => exact ⟨false, rfl⟩
  | _ :: _ :: _ :: _ :: _ => exact ⟨false, rfl⟩

/-- The conjunction of a list of safe conditions evaluates normally. -/
theorem allConditions_total (facts : Facts) :
    ∀ conds : List (List Value), (∀ c ∈ conds, condHashSafeB c = true) →
      ∃ b, allConditions facts conds = .ok b := by
  intro conds
  induction conds with
  | nil => exact fun _ => ⟨true, rfl⟩
  | cons c rest ih =>
    intro h
    obtain ⟨b, hb⟩ := evaluate_condition_total facts c (h c (List.mem_cons_self c rest))
    obtain ⟨b2, hb2⟩ := ih (fun c' hc' => h c' (List.mem_cons_of_mem c hc'))
    cases b with
    | false => exact ⟨false, by simp [allConditions, hb]⟩
    | true => exact ⟨b2, by simp [allConditions, hb, hb2]⟩

/-- Matching returns normally when every condition of the rule is safe. -/
theorem rule_matches_total (facts : Facts) (rule : Rule)
    (h : ∀ c ∈ rule.conditions, condHashSafeB c = true) :
    ∃ b, rule_matches facts rule = .ok b :=
  allConditions_total facts rule.conditions h

/-- The stable filter returns normally when every rule is safe. -/
theorem firedList_total (facts : Facts) (rules : List Rule)
    (h : ∀ r ∈ rules, ∀ c ∈ r.conditions, condHashSafeB c = true) :
    ∃ fired, firedList facts rules = .ok fired := by
  induction rules with
  | nil => exact ⟨[], rfl⟩
  | cons r rest ih =>
    obtain ⟨m, hm⟩ := rule_matches_total facts r (h r (List.mem_cons_self r rest))
    obtain ⟨tail, htail⟩ := ih (fun r' hr' => h r' (List.mem_cons_of_mem r hr'))
    exact ⟨if m then r :: tail else tail, by simp [firedList, hm, htail]⟩

/-- Whole-engine totality: `run_rules` returns normally when every rule is safe. -/
theorem run_rules_total (facts : Facts) (rules : List Rule)
    (h : ∀ r ∈ rules, ∀ c ∈ r.conditions, condHashSafeB c = true) :
    ∃ out, run_rules facts rules = .ok out := by
  obtain ⟨fired, hf⟩ := firedList_total facts rules h
  cases fired with
  | nil => exact ⟨(noRuleMatchedAction, []), by simp [run_rules, hf]⟩
  | cons f rest =>
    cases hs : sortByPriorityDesc (f :: rest) with
    | nil => exact absurd (by simpa [sortByPriorityDesc] using hs) (insertDesc_ne_nil f _)
    | cons b bs =>
      exact ⟨(b.action.getD noActionDefault, b :: bs), by simp [run_rules, hf, hs]⟩

/-! ## Membership in the fired list -/

/-- A rule of the input that matches ends up in the fired list. -/
theorem mem_firedList (facts : Facts) (r : Rule) :
    ∀ rules fired : List Rule, r ∈ rules → rule_matches facts r = .ok true →
      firedList facts rules = .ok fired → r ∈ fired := by
  intro rules
  induction rules with
  | nil => exact fun fired hmem _ _ => absurd hmem (List.not_mem_nil r)
  | cons x rest ih =>
    intro fired hmem hr hf
    simp only [firedList] at hf
    cases hx : rule_matches facts x with
    | error e => simp only [hx] at hf; exact Except.noConfusion hf
    | ok m =>
      simp only [hx] at hf
      cases ht : firedList facts rest with
      | error e => simp only [ht] at hf; exact Except.noConfusion hf
      | ok tail =>
        simp only [ht] at hf
        have hfired : (if m then x :: tail else tail) = fired := Except.ok.inj hf
        rcases List.mem_cons.mp hmem with rfl | hmem'
        · rw [hr] at hx
          have hm : true = m := Except.ok.inj hx
          rw [← hfired, ← hm]
          exact List.mem_cons_self r tail
        · have htail : r ∈ tail := ih tail hmem' hr ht
          rw [← hfired]
          cases m with
          | false => exact htail
          | true => exact List.mem_cons_of_mem x htail

/-- No rule matching means the fired list is empty. -/
theorem firedList_empty (facts : Facts) (rules : List Rule)
    (h : ∀ r ∈ rules, rule_matches facts r = .ok false) :
    firedList facts rules = .ok [] := by
  induction rules with
  | nil => rfl
  | cons r rest ih =>
    simp only [firedList, h r (List.mem_cons_self r rest),
      ih (fun r' hr' => h r' (List.mem_cons_of_mem r hr'))]
    rfl

/-! ## Operator table lookups -/

/-- A symbol outside the fixed operator set is absent from `OPS`. -/
theorem dictGet_OPS_eq_none (o : String)
    (h : o ∉ (["==", "!=", ">", ">=", "<", "<=", "in", "not_in"] : List String)) :
    dictGet OPS o = none := by
  simp only [List.mem_cons, List.not_mem_nil, or_false, not_or] at h
  obtain ⟨h1, h2, h3, h4, h5, h6, h7, h8⟩ := h
  have g1 : ("==" == o) = false := beq_eq_false_iff_ne.mpr fun hh => h1 hh.symm
  have g2 : ("!=" == o) = false := beq_eq_false_iff_ne.mpr fun hh => h2 hh.symm
  have g3 : (">" == o) = false := beq_eq_false_iff_ne.mpr fun hh => h3 hh.symm
  have g4 : (">=" == o) = false := beq_eq_false_iff_ne.mpr fun hh => h4 hh.symm
  have g5 : ("<" == o) = false := beq_eq_false_iff_ne.mpr fun hh => h5 hh.symm
  have g6 : ("<=" == o) = false := beq_eq_false_iff_ne.mpr fun hh => h6 hh.symm
  have g7 : ("in" == o) = false := beq_eq_false_iff_ne.mpr fun hh => h7 hh.symm
  have g8 : ("not_in" == o) = false := beq_eq_false_iff_ne.mpr fun hh => h8 hh.symm
  simp [OPS, dictGet, g1, g2, g3, g4, g5, g6, g7, g8]

/-! ## The claims -/

/-- C3: for every fact set `F` and condition `C` whose field name is not a
key of `F`, or whose operator symbol lies outside the fixed set
`{==, !=, >, >=, <, <=, in, not_in}`, `evaluate(F, C)` is `false`. -/
theorem C3_unknown_field_or_operator_is_false (facts : Facts) (f o : String) (v : Value)
    (h : dictGet facts f = none ∨
         o ∉ (["==", "!=", ">", ">=", "<", "<=", "in", "not_in"] : List String)) :
    evaluate_condition facts [.str f, .str o, v] = .ok false := by
  rcases h with h | h
  · simp [evaluate_condition, h]
  · have hop := dictGet_OPS_eq_none o h
    cases hget : dictGet facts f with
    | none => simp [evaluate_condition, hget]
    | some fv => simp [evaluate_condition, hget, hop]

/-- Witness for C3: a field absent from the facts, and a malformed operator
symbol, each make the condition evaluate to `false`. -/
theorem C3_witness :
    evaluate_condition [("income", Value.num 5)] [.str "missing", .str "==", .num 1] = .ok false ∧
    evaluate_condition [("income", Value.num 5)] [.str "income", .str "===", .num 1] = .ok false :=
  ⟨C3_unknown_field_or_operator_is_false _ "missing" "==" (.num 1) (Or.inl rfl),
   C3_unknown_field_or_operator_is_false _ "income" "===" (.num 1) (Or.inr (by decide))⟩

/-- C10: a condition that is not a triple evaluates to `false` immediately
(the length check precedes every inspection of field, operator or operand —
in particular no exception can arise there). -/
theorem C10_non_triple_condition_is_false (facts : Facts) (cond : List Value)
    (h : cond.length ≠ 3) :
    evaluate_condition facts cond = .ok false := by
  rcases cond with _ | ⟨a, _ | ⟨b, _ | ⟨c, _ | ⟨d, t⟩⟩⟩⟩
  · rfl
  · rfl
  · rfl
  · exact absurd rfl h
  · rfl

/-- Witness for C10: a two-element condition evaluates to `false`. -/
theorem C10_witness :
    evaluate_condition [] [Value.str "x", Value.str "=="] = .ok false :=
  C10_non_triple_condition_is_false [] [Value.str "x", Value.str "=="] (by decide)

/-- C9: a rule with an empty condition sequence matches every fact set, and
therefore appears in the fired subset of every run that lists it. -/
theorem C9_empty_conditions_always_match (facts : Facts) (r : Rule)
    (hr : r.conditions = []) :
    rule_matches facts r = .ok true ∧
    ∀ rules fired : List Rule, firedList facts rules = .ok fired → r ∈ rules → r ∈ fired := by
  have hm : rule_matches facts r = .ok true := by
    unfold rule_matches
    rw [hr]
    rfl
  exact ⟨hm, fun rules fired hf hmem => mem_firedList facts r rules fired hmem hm hf⟩

/-- Witness for C9: the all-defaults rule (no `conditions` key) matches the
empty fact set and lands in the fired list of a run containing it. -/
theorem C9_witness :
    rule_matches [] trivialRule = .ok true ∧ trivialRule ∈ [trivialRule] :=
  ⟨(C9_empty_conditions_always_match [] trivialRule rfl).1,
   (C9_empty_conditions_always_match [] trivialRule rfl).2
     [lowCreditRule, trivialRule] [trivialRule] rfl
     (List.mem_cons_of_mem _ (List.mem_cons_self _ _))⟩

/-- C4 counterexample: on the empty rule list the engine's default reason is
the string "No rule matched" (capital N), not the claimed exact string
"no rule matched". -/
theorem C4_counterexample :
    run_rules [] [] =
      .ok (.dict [("decision", .str "REVIEW"), ("reason", .str "No rule matched")], []) ∧
    ("No rule matched" : String) ≠ "no rule matched" :=
  ⟨rfl, by decide⟩

/-- C4 amended: when no rule matches (in particular on an empty rule list),
`run_rules` returns the default action with decision `REVIEW` and reason
exactly "No rule matched", together with an empty matched-rule sequence. -/
theorem C4_no_match_default (facts : Facts) (rules : List Rule)
    (h : ∀ r ∈ rules, rule_matches facts r = .ok false) :
    run_rules facts rules =
      .ok (.dict [("decision", .str "REVIEW"), ("reason", .str "No rule matched")], []) := by
  have hf := firedList_empty facts rules h
  unfold run_rules
  rw [hf]
  rfl

/-- Witness for C4: facts that satisfy no default rule produce the default
REVIEW action and an empty matched list. -/
theorem C4_witness :
    run_rules [("income", Value.num 0)] [lowCreditRule] =
      .ok (.dict [("decision", .str "REVIEW"), ("reason", .str "No rule matched")], []) :=
  C4_no_match_default _ _ (by
    intro r hrr
    rcases List.mem_cons.mp hrr with rfl | hrr
    · rfl
    · exact absurd hrr (List.not_mem_nil r))

/-- C1: with at least one matching rule, `run_rules` returns the action of
the first element of the sorted matched subset, and that sorted subset is a
permutation of the stable-filtered matches, descending on priority, with
every equal-priority class kept in its original relative order (so among
equal-priority matches the rule listed earliest wins). -/
theorem C1_stable_priority_selection (facts : Facts) (rules : List Rule)
    (fired : List Rule) (b : Rule) (bs : List Rule) (a : Value)
    (hf : firedList facts rules = .ok fired)
    (hs : sortByPriorityDesc fired = b :: bs)
    (hb : b.action = some a) :
    run_rules facts rules = .ok (a, b :: bs) ∧
    List.Perm (b :: bs) fired ∧
    List.Pairwise (fun x y => sortKey y ≤ sortKey x) (b :: bs) ∧
    ∀ q : ℚ, (b :: bs).filter (fun x => decide (sortKey x = q)) =
      fired.filter (fun x => decide (sortKey x = q)) := by
  refine ⟨?_, ?_, ?_, ?_⟩
  · rw [run_rules_sorted_head facts rules fired b bs hf hs, hb]
    rfl
  · rw [← hs]
    exact sortByPriorityDesc_perm fired
  · rw [← hs]
    exact sortByPriorityDesc_pairwise fired
  · intro q
    rw [← hs]
    exact sortByPriorityDesc_filter fired q

/-- Witness for C1: two always-matching rules of equal priority 5; the one
listed first supplies the winning action. -/
theorem C1_witness :
    run_rules [] [tieRuleA, tieRuleB] = .ok (.str "actionA", [tieRuleA, tieRuleB]) ∧
    List.Perm [tieRuleA, tieRuleB] [tieRuleA, tieRuleB] ∧
    List.Pairwise (fun x y => sortKey y ≤ sortKey x) [tieRuleA, tieRuleB] ∧
    ∀ q : ℚ, ([tieRuleA, tieRuleB].filter fun x => decide (sortKey x = q)) =
      ([tieRuleA, tieRuleB].filter fun x => decide (sortKey x = q)) :=
  C1_stable_priority_selection [] [tieRuleA, tieRuleB] [tieRuleA, tieRuleB]
    tieRuleA [tieRuleB] (.str "actionA") rfl rfl rfl

/-- C5 counterexample: the substituted default reason is "No action"
(capital N), not "no action"; and an action key that is present but
malformed (here the bare number 7) is returned verbatim, not replaced by
any default. -/
theorem C5_counterexample :
    (run_rules [] [trivialRule] =
       .ok (.dict [("decision", .str "REVIEW"), ("reason", .str "No action")], [trivialRule]) ∧
     ("No action" : String) ≠ "no action") ∧
    (run_rules [] [badActionRule] = .ok (.num 7, [badActionRule]) ∧
     Value.num 7 ≠ .dict [("decision", .str "REVIEW"), ("reason", .str "no action")]) :=
  ⟨⟨rfl, by decide⟩, ⟨rfl, fun h => Value.noConfusion h⟩⟩

/-- C5 amended: when the highest-priority matching rule lacks an `action`
key, `run_rules` substitutes the default action with decision REVIEW and
reason exactly "No action", still returning the sorted matched sequence.
(A present-but-malformed action is NOT substituted; see the counterexample.) -/
theorem C5_absent_action_default (facts : Facts) (rules fired : List Rule)
    (b : Rule) (bs : List Rule)
    (hf : firedList facts rules = .ok fired)
    (hs : sortByPriorityDesc fired = b :: bs)
    (hb : b.action = none) :
    run_rules facts rules =
      .ok (.dict [("decision", .str "REVIEW"), ("reason", .str "No action")], b :: bs) := by
  rw [run_rules_sorted_head facts rules fired b bs hf hs, hb]
  rfl

/-- Witness for C5: a matching rule without an action key yields the REVIEW
/ "No action" default while the matched list is still reported. -/
theorem C5_witness :
    run_rules [] [trivialRule] =
      .ok (.dict [("decision", .str "REVIEW"), ("reason", .str "No action")], [trivialRule]) :=
  C5_absent_action_default [] [trivialRule] [trivialRule] trivialRule [] rfl rfl rfl

/-- C2 counterexample: a condition whose field slot holds a list (an
unhashable value) makes `field not in facts` raise `TypeError` OUTSIDE the
`try` block of the source, and the exception propagates out of
`evaluate_condition`, `rule_matches` and `run_rules` to the caller. -/
theorem C2_counterexample :
    evaluate_condition [] [.list [], .str "==", .num 0] = .error () ∧
    rule_matches [] unhashableFieldRule = .error () ∧
    run_rules [] [unhashableFieldRule] = .error () :=
  ⟨rfl, rfl, rfl⟩

/-- C2 amended: for every condition whose field and operator slots hold
hashable values the evaluator returns a boolean and never raises, and every
enumerated failure mode resolves to `false`: an unknown field gives `false`,
an unknown operator gives `false`, and a recognized operator whose
application to (fact value, operand) fails — the type-incompatible
comparison, caught by the source's `try/except` — gives `false`; `matches`
and `run` return normally under the same proviso.  (The claim as stated
fails only on unhashable, list- or dict-valued, field or operator slots;
see the counterexample.) -/
theorem C2_fail_closed_for_hashable_slots :
    (∀ (facts : Facts) (cond : List Value), condHashSafeB cond = true →
       ∃ b, evaluate_condition facts cond = .ok b) ∧
    (∀ (facts : Facts) (f o : String) (v : Value), dictGet facts f = none →
       evaluate_condition facts [.str f, .str o, v] = .ok false) ∧
    (∀ (facts : Facts) (f o : String) (v : Value), dictGet OPS o = none →
       evaluate_condition facts [.str f, .str o, v] = .ok false) ∧
    (∀ (facts : Facts) (f o : String) (v fv : Value) (fn : Value → Value → Option Bool),
       dictGet facts f = some fv → dictGet OPS o = some fn → fn fv v = none →
       evaluate_condition facts [.str f, .str o, v] = .ok false) ∧
    (∀ (facts : Facts) (rule : Rule), (∀ c ∈ rule.conditions, condHashSafeB c = true) →
       ∃ b, rule_matches facts rule = .ok b) ∧
    (∀ (facts : Facts) (rules : List Rule),
       (∀ r ∈ rules, ∀ c ∈ r.conditions, condHashSafeB c = true) →
       ∃ out, run_rules facts rules = .ok out) := by
  refine ⟨evaluate_condition_total, ?_, ?_, ?_, rule_matches_total, run_rules_total⟩
  · intro facts f o v h
    simp [evaluate_condition, h]
  · intro facts f o v h
    cases hget : dictGet facts f with
    | none => simp [evaluate_condition, hget]
    | some fv => simp [evaluate_condition, hget, h]
  · intro facts f o v fv fn hget hops happ
    simp [evaluate_condition, hget, hops, happ]

/-- Witness for C2 (amended): a well-formed condition over an empty fact set
evaluates without an exception, and the type-incompatible comparison
5 > "abc" — a `TypeError` inside the `try` block — resolves to `false`. -/
theorem C2_witness :
    (∃ b, evaluate_condition [] [.str "f", .str "==", .num 1] = .ok b) ∧
    evaluate_condition [("a", Value.num 5)] [.str "a", .str ">", .str "abc"] = .ok false :=
  ⟨C2_fail_closed_for_hashable_slots.1 [] [.str "f", .str "==", .num 1] rfl,
   C2_fail_closed_for_hashable_slots.2.2.2.1 [("a", Value.num 5)] "a" ">"
     (Value.str "abc") (Value.num 5) _ rfl rfl rfl⟩

/-- C6 counterexample: with fact value "ab" and string operand "xaby" the
`in` condition evaluates TRUE by Python substring containment, although the
elements of the operand (its characters, as one-character strings) do not
contain "ab" — so `evaluate` is not "true iff the fact value is an element
of the operand", and a string operand is not resolved to `false` either. -/
theorem C6_counterexample :
    evaluate_condition [("x", Value.str "ab")] [.str "x", .str "in", .str "xaby"] = .ok true ∧
    ([Value.str "x", Value.str "a", Value.str "b", Value.str "y"].any
       fun e => pyEq e (Value.str "ab")) = false :=
  ⟨rfl, by simp [pyEq]⟩

/-- C6 amended: with the fact value present, `in` (and dually `not_in`)
evaluates to: element membership of the fact value (Python `==` as element
equality) for a list operand; Python substring containment for a string
operand when the fact value is a string, `false` (a caught `TypeError`)
otherwise; key membership for a dict operand when the fact value is
hashable, `false` otherwise; and `false` on every non-collection
(null / boolean / number) operand. -/
theorem C6_membership_semantics (facts : Facts) (f : String) (fv : Value)
    (hf : dictGet facts f = some fv) :
    (∀ xs : List Value,
       evaluate_condition facts [.str f, .str "in", .list xs] =
         .ok (xs.any fun x => pyEq x fv) ∧
       evaluate_condition facts [.str f, .str "not_in", .list xs] =
         .ok (!xs.any fun x => pyEq x fv)) ∧
    (∀ n : String, fv = .str n → ∀ s : String,
       evaluate_condition facts [.str f, .str "in", .str s] =
         .ok (strContainsSub n.data s.data) ∧
       evaluate_condition facts [.str f, .str "not_in", .str s] =
         .ok (!strContainsSub n.data s.data)) ∧
    ((∀ n : String, fv ≠ .str n) → ∀ s : String,
       evaluate_condition facts [.str f, .str "in", .str s] = .ok false ∧
       evaluate_condition facts [.str f, .str "not_in", .str s] = .ok false) ∧
    (hashable fv = true → ∀ d : List (String × Value),
       evaluate_condition facts [.str f, .str "in", .dict d] =
         .ok (d.any fun kv => pyEq (.str kv.1) fv) ∧
       evaluate_condition facts [.str f, .str "not_in", .dict d] =
         .ok (!d.any fun kv => pyEq (.str kv.1) fv)) ∧
    (hashable fv = false → ∀ d : List (String × Value),
       evaluate_condition facts [.str f, .str "in", .dict d] = .ok false ∧
       evaluate_condition facts [.str f, .str "not_in", .dict d] = .ok false) ∧
    (∀ w : Value, isNonCollection w = true →
       evaluate_condition facts [.str f, .str "in", w] = .ok false ∧
       evaluate_condition facts [.str f, .str "not_in", w] = .ok false) := by
  have hin : dictGet OPS "in" = some pyIn := rfl
  have hnotin : dictGet OPS "not_in" = some (fun a b => (pyIn a b).map (!·)) := rfl
  refine ⟨?_, ?_, ?_, ?_, ?_, ?_⟩
  · intro xs
    exact ⟨by simp [evaluate_condition, hf, hin, pyIn],
           by simp [evaluate_condition, hf, hnotin, pyIn]⟩
  · intro n hn s
    subst hn
    exact ⟨by simp [evaluate_condition, hf, hin, pyIn],
           by simp [evaluate_condition, hf, hnotin, pyIn]⟩
  · intro hns s
    cases fv with
    | str n => exact absurd rfl (hns n)
    | null => exact ⟨by simp [evaluate_condition, hf, hin, pyIn],
                     by simp [evaluate_condition, hf, hnotin, pyIn]⟩
    | bool bb => exact ⟨by simp [evaluate_condition, hf, hin, pyIn],
                        by simp [evaluate_condition, hf, hnotin, pyIn]⟩
    | num q => exact ⟨by simp [evaluate_condition, hf, hin, pyIn],
                      by simp [evaluate_condition, hf, hnotin, pyIn]⟩
    | list xs => exact ⟨by simp [evaluate_condition, hf, hin, pyIn],
                        by simp [evaluate_condition, hf, hnotin, pyIn]⟩
    | dict d => exact ⟨by simp [evaluate_condition, hf, hin, pyIn],
                       by simp [evaluate_condition, hf, hnotin, pyIn]⟩
  · intro hh d
    cases fv with
    | list xs => exact absurd hh (by simp [hashable])
    | dict dd => exact absurd hh (by simp [hashable])
    | null => exact ⟨by simp [evaluate_condition, hf, hin, pyIn],
                     by simp [evaluate_condition, hf, hnotin, pyIn]⟩
    | bool bb => exact ⟨by simp [evaluate_condition, hf, hin, pyIn],
                        by simp [evaluate_condition, hf, hnotin, pyIn]⟩
    | num q => exact ⟨by simp [evaluate_condition, hf, hin, pyIn],
                      by simp [evaluate_condition, hf, hnotin, pyIn]⟩
    | str n => exact ⟨by simp [evaluate_condition, hf, hin, pyIn],
                      by simp [evaluate_condition, hf, hnotin, pyIn]⟩
  · intro hh d
    cases fv with
    | list xs => exact ⟨by simp [evaluate_condition, hf, hin, pyIn],
                        by simp [evaluate_condition, hf, hnotin, pyIn]⟩
    | dict dd => exact ⟨by simp [evaluate_condition, hf, hin, pyIn],
                        by simp [evaluate_condition, hf, hnotin, pyIn]⟩
    | null => exact absurd hh (by simp [hashable])
    | bool bb => exact absurd hh (by simp [hashable])
    | num q => exact absurd hh (by simp [hashable])
    | str n => exact absurd hh (by simp [hashable])
  · intro w hw
    cases w with
    | null => exact ⟨by simp [evaluate_condition, hf, hin, pyIn],
                     by simp [evaluate_condition, hf, hnotin, pyIn]⟩
    | bool bb => exact ⟨by simp [evaluate_condition, hf, hin, pyIn],
                        by simp [evaluate_condition, hf, hnotin, pyIn]⟩
    | num q => exact ⟨by simp [evaluate_condition, hf, hin, pyIn],
                      by simp [evaluate_condition, hf, hnotin, pyIn]⟩
    | str s => exact absurd hw (by simp [isNonCollection])
    | list xs => exact absurd hw (by simp [isNonCollection])
    | dict d => exact absurd hw (by simp [isNonCollection])

/-- Witness for C6 (amended): 2 is an element of the list [1, 2]; "ab" is a
substring of "xaby"; and a numeric operand fails closed. -/
theorem C6_witness :
    evaluate_condition [("x", Value.num 2)] [.str "x", .str "in", .list [.num 1, .num 2]] =
      .ok ([Value.num 1, Value.num 2].any fun x => pyEq x (Value.num 2)) ∧
    evaluate_condition [("x", Value.str "ab")] [.str "x", .str "in", .str "xaby"] =
      .ok (strContainsSub "ab".data "xaby".data) ∧
    evaluate_condition [("x", Value.num 2)] [.str "x", .str "in", .num 5] = .ok false :=
  ⟨((C6_membership_semantics [("x", Value.num 2)] "x" (Value.num 2) rfl).1
      [Value.num 1, Value.num 2]).1,
   ((C6_membership_semantics [("x", Value.str "ab")] "x" (Value.str "ab") rfl).2.1
      "ab" rfl "xaby").1,
   ((C6_membership_semantics [("x", Value.num 2)] "x" (Value.num 2) rfl).2.2.2.2.2
      (Value.num 5) rfl).1⟩

/-- C7: on the facts {debt_to_income: 0.65, credit_score: 500} against the
five default rules, exactly "Too much debt" (priority 70) and "Low credit or
income" (priority 50) fire, and the winner is REJECT with reason
"High debt-to-income ratio". -/
theorem C7_scenario_c :
    firedList scenarioCFacts DEFAULT_RULES = .ok [tooMuchDebtRule, lowCreditRule] ∧
    tooMuchDebtRule.name = some (.str "Too much debt") ∧
    tooMuchDebtRule.priority = some 70 ∧
    lowCreditRule.name = some (.str "Low credit or income") ∧
    lowCreditRule.priority = some 50 ∧
    run_rules scenarioCFacts DEFAULT_RULES =
      .ok (.dict [("decision", .str "REJECT"), ("reason", .str "High debt-to-income ratio")],
           [tooMuchDebtRule, lowCreditRule]) :=
  ⟨rfl, rfl, rfl, rfl, rfl, rfl⟩

/-- C8: a rule without a `priority` key carries sort key 0, and in any
sorted output it is preceded only by rules of nonnegative key and followed
only by rules of nonpositive key — below every positive priority, above
every negative one. -/
theorem C8_absent_priority_defaults_to_zero (r : Rule) (hr : r.priority = none)
    (l as bs : List Rule) (hs : sortByPriorityDesc l = as ++ r :: bs) :
    sortKey r = 0 ∧ (∀ x ∈ as, 0 ≤ sortKey x) ∧ (∀ x ∈ bs, sortKey x ≤ 0) := by
  have hkey : sortKey r = 0 := by simp [sortKey, hr]
  have hp := sortByPriorityDesc_pairwise l
  rw [hs, List.pairwise_append] at hp
  obtain ⟨h1, h2, h3⟩ := hp
  refine ⟨hkey, ?_, ?_⟩
  · intro x hx
    have hxr := h3 x hx r (List.mem_cons_self r bs)
    rw [hkey] at hxr
    exact hxr
  · intro x hx
    have hrx := (List.pairwise_cons.mp h2).1 x hx
    rw [hkey] at hrx
    exact hrx

/-- Witness for C8: sorting a positive-priority rule, a no-priority rule and
a negative-priority rule places the no-priority rule strictly between them. -/
theorem C8_witness :
    sortKey trivialRule = 0 ∧
    (∀ x ∈ [posPriorityRule], 0 ≤ sortKey x) ∧
    (∀ x ∈ [negPriorityRule], sortKey x ≤ 0) :=
  C8_absent_priority_defaults_to_zero trivialRule rfl
    [posPriorityRule, trivialRule, negPriorityRule] [posPriorityRule] [negPriorityRule] rfl
